import Mathlib

/-!
# TaskManager.js — shallow embedding and verification

This file embeds the priority-queue task scheduler of `TaskManager.js`
(the `TMTask` and `TaskManager` classes) and proves properties of its
operations.

Modelling conventions:
* The linked chain `queue.head → … → queue.tail` is a `List TMTask`
  (front = head); the `next` pointers are the list structure.  The
  explicit `tail` pointer of `this.queue.tail` is kept as its own field,
  mirroring the assignments in the source.
* `this.length` is an `Int` (a JS number), tracked separately from the
  chain, exactly as in the source.
* Duplicate tracking (`this[params.id] = 1` / `delete this[task.id]`) is
  a list of ids with set semantics (`List.insert` / `List.erase`).
* Task ids are `Nat`; the JS falsiness test `!params.id` holds for a
  missing id and for `0`, both replaced by the timestamp `now` that the
  caller of `enqueueTask` supplies (standing for `Date.now()`).
* Work functions are opaque: a task either has one (`some ()`) or not
  (`none`); their runtime outcome (the promise resolving or rejecting)
  is an environment choice, delivered by the `settleHead` transition.
  A missing work function makes the synchronous call
  `this.taskFunc(this.data)` throw; thrown errors are `Except.error`
  and propagate to the caller (nothing in the source catches them).
* Diagnostic output is modelled as events tagged with their severity;
  log payloads are abbreviated to short tags.  Every emitted event is
  paired with the value of `this.length` at the moment of emission, so
  that ordering claims about when `length` is decremented are statable.
* `emit('ready', t)`/`emit('complete')` deliver events; the manager's
  own `ready` listener (installed in the constructor) runs as part of
  the emitting operation.  Both emit sites (`result.then` in
  `TMTask.execute`, and `skip`) pass the task at the head of the chain,
  so the embedding of the listener reads the completed task from the
  head of the queue; `this.queue.head = task.next || null` is then
  "drop the head".
-/

namespace TaskManagerSpec

/-- A queued task: the fields of class `TMTask` that carry data
(`taskManager` is omitted — it is always the owning manager — and
`next` is represented by the list structure of the queue). -/
structure TMTask where
  taskType : String
  id : Nat
  data : Option Nat
  taskPriority : Int
  taskFunc : Option Unit
  debug_task : Bool
  retry : Bool
deriving Repr, DecidableEq

/-- The parameter record accepted by `enqueueTask` (fields of
`TMTaskParams`); `none` stands for a field the caller did not supply. -/
structure TMTaskParams where
  taskType : Option String := none
  id : Option Nat := none
  data : Option Nat := none
  taskPriority : Option Int := none
  taskFunc : Option Unit := none
  debug_task : Bool := false
  retry : Bool := false
deriving Repr, DecidableEq

/-- The mutable state of a `TaskManager` instance. -/
structure TMState where
  tmName : String
  queue : List TMTask
  tail : Option TMTask
  length : Int
  tracked : List Nat
  defaultTaskFunc : Option Unit
  debug_tasks : Bool
deriving Repr, DecidableEq

/-- Constructor parameters of `TaskManager`. -/
structure TaskManagerParams where
  defaultTaskFunc : Option Unit := none
  tmName : Option String := none
  debug_tasks : Bool := false
deriving Repr, DecidableEq

/-- `new TaskManager(params)`: empty chain, `length = 0`, empty
duplicate-membership set. -/
def TaskManagerNew (p : TaskManagerParams) : TMState :=
  { tmName := p.tmName.getD "TaskManager"
    queue := []
    tail := none
    length := 0
    tracked := []
    defaultTaskFunc := p.defaultTaskFunc
    debug_tasks := p.debug_tasks }

/-- Observable events: the two lifecycle signals, the start of a task's
execution, and the five severity-leveled diagnostic sinks of the
logging collaborator. -/
inductive Ev where
  | ready (t : TMTask)
  | complete
  | execStart (t : TMTask)
  | logLog (tag : String)
  | logInfo (tag : String)
  | logDebug (tag : String)
  | logWarn (tag : String)
  | logError (tag : String)
deriving Repr, DecidableEq

/-- A trace of emitted events, each paired with the value of
`this.length` at the moment it was emitted. -/
abbrev Trace := List (Ev × Int)

/-- Field normalization at the top of `enqueueTask` (lines 166–174):
default `taskType`, default priority 5, timestamp id for a falsy id,
and fallback to the manager's `defaultTaskFunc`. -/
def normalizeTask (st : TMState) (p : TMTaskParams) (now : Nat) : TMTask :=
  { taskType := p.taskType.getD "AppTask"
    id := match p.id with
          | none => now
          | some i => if i = 0 then now else i
    data := p.data
    taskPriority := p.taskPriority.getD 5
    taskFunc := match p.taskFunc with
                | none => st.defaultTaskFunc
                | some f => some f
    debug_task := p.debug_task
    retry := p.retry }

/-- The insertion walk of `enqueueTask` (lines 187–196), performed on
the portion of the chain after the head: advance while a successor
exists and its priority is ≤ the new task's priority, then link the new
task right after the stopping node.  The boolean is `true` iff the
stopping node's `next` was null, i.e. the new task became the last node
(the case in which the source updates `queue.tail`). -/
def insertWalk (t : TMTask) : List TMTask → List TMTask × Bool
  | [] => ([t], true)
  | x :: xs =>
    if x.taskPriority ≤ t.taskPriority then
      let r := insertWalk t xs
      (x :: r.1, r.2)
    else
      (t :: x :: xs, false)

/-- `TMTask.execute` up to the point the work function has been invoked
(lines 80–87): the debug line, then `this.taskFunc(this.data)`.  When
the task has no work function (neither its own nor an inherited
default) the call itself throws, uncaught.  The promise's settlement is
delivered later by `settleHead`. -/
def executeStart (t : TMTask) (len : Int) : Except String Trace :=
  match t.taskFunc with
  | none => .error "TypeError: taskFunc is not a function"
  | some _ => .ok [(Ev.logDebug "Executing task", len), (Ev.execStart t, len)]

/-- The manager's own `ready` listener (constructor, lines 125–141):
log, `delete this[task.id]`, advance `head` past the completed task,
then either execute the new head or clear `tail` and emit `complete`,
and finally decrement `length`.  Both emit sites pass the current head,
so the completed task is the head of the queue. -/
def readyListener (st : TMState) : Except String (TMState × Trace) :=
  match st.queue with
  | [] => .error "TypeError: ready listener invoked with no head task"
  | task :: rest =>
    let e0 : Trace :=
      (Ev.logInfo "Task Completed for", st.length) ::
        (if st.debug_tasks then [(Ev.logLog "console.log(task)", st.length)] else [])
    let st1 : TMState := { st with tracked := st.tracked.erase task.id }
    let st2 : TMState := { st1 with queue := rest }
    match rest with
    | next :: _ =>
      match executeStart next st2.length with
      | .error e => .error e
      | .ok e1 =>
        let st3 : TMState := { st2 with length := st2.length - 1 }
        .ok (st3, e0 ++ (Ev.logInfo "Executing next task", st2.length) :: e1)
    | [] =>
      let st3 : TMState := { st2 with tail := none }
      let st4 : TMState := { st3 with length := st3.length - 1 }
      .ok (st4, e0 ++ [(Ev.logInfo "Queue Complete", st3.length), (Ev.complete, st3.length)])

/-- `TaskManager.skip` (lines 147–155): if `length > 0`, warn and emit
`ready` with the current head (running the manager's own listener);
otherwise report an error-level diagnostic and do nothing. -/
def skip (st : TMState) : Except String (TMState × Trace) :=
  if st.length > 0 then
    match st.queue with
    | [] => .error "TypeError: skip with no head task"
    | task :: _ =>
      match readyListener st with
      | .error e => .error e
      | .ok (st', evs) =>
        .ok (st', (Ev.logWarn "Skipping task at head of queue", st.length) ::
                  (Ev.ready task, st.length) :: evs)
  else
    .ok (st, [(Ev.logError "TM.skip() failed: queue is empty", st.length)])

/-- `TaskManager.enqueueTask(params, allowDuplicate)` (lines 163–204):
normalize fields, duplicate check on `this[params.id]`, then either
start the queue (and synchronously begin executing the new head) or
insert into sorted position after the head; `length++` afterwards, and
a long-queue warning above the high-water mark 10. -/
def enqueueTask (st : TMState) (p : TMTaskParams) (allowDuplicate : Bool) (now : Nat) :
    Except String (TMState × Trace) :=
  let task := normalizeTask st p now
  let e0 : Trace :=
    (if p.debug_task then [(Ev.logDebug "taskType | id | data", st.length)] else []) ++
      [(Ev.logLog "Enqueuing Task on TaskManager", st.length)]
  if !(st.tracked.contains task.id) || allowDuplicate then
    let st1 : TMState := { st with tracked := st.tracked.insert task.id }
    match st.queue with
    | [] =>
      let st2 : TMState := { st1 with queue := [task], tail := some task }
      match executeStart task st2.length with
      | .error e => .error e
      | .ok e1 =>
        let st3 : TMState := { st2 with length := st2.length + 1 }
        let e2 : Trace :=
          if st3.length > 10 then [(Ev.logWarn "LONG QUEUE", st3.length)] else []
        .ok (st3, e0 ++ (Ev.logLog "Starting new queue with", st.length) :: e1 ++ e2)
    | h :: rest =>
      let r := insertWalk task rest
      let st2 : TMState :=
        { st1 with queue := h :: r.1, tail := if r.2 then some task else st1.tail }
      let st3 : TMState := { st2 with length := st2.length + 1 }
      let e2 : Trace :=
        if st3.length > 10 then [(Ev.logWarn "LONG QUEUE", st3.length)] else []
      .ok (st3, e0 ++ (Ev.logLog "Appending to queue", st.length) :: e2)
  else
    .ok (st, e0 ++ [(Ev.logWarn "Data is already in queue", st.length)])

/-- The priority demotion in the retry branch of `TMTask.execute`
(lines 91–93): `if (this.taskPriority < 5) this.taskPriority++`. -/
def retryBumpPriority (p : Int) : Int :=
  if p < 5 then p + 1 else p

/-- Re-submitting a task object itself through `enqueueTask` (the retry
branch passes `this` as the parameter record). -/
def paramsOfTask (t : TMTask) : TMTaskParams :=
  { taskType := some t.taskType
    id := some t.id
    data := t.data
    taskPriority := some t.taskPriority
    taskFunc := t.taskFunc
    debug_task := t.debug_task
    retry := t.retry }

/-- Settlement outcome of the promise wrapping the head task's work
function. -/
inductive Outcome where
  | resolve
  | reject
deriving Repr, DecidableEq

/-- The `result.catch` handler of a retried head task (`TMTask.execute`,
lines 88–96): log the failure at error level, demote the priority
(mutating the head task object in place, so the queued head changes
too), re-submit the task object itself through `enqueueTask` with the
duplicate-bypass flag, then call `skip()` to retire the failed
occurrence. -/
def retryCatch (st : TMState) (t : TMTask) (rest : List TMTask) :
    Except String (TMState × Trace) :=
  let t' : TMTask := { t with taskPriority := retryBumpPriority t.taskPriority }
  -- `this.taskPriority++` mutates the head node in place; the value
  -- model must reflect that mutation in the `tail` pointer when the
  -- tail refers to that same node, i.e. when the head is the last node.
  let stB : TMState := { st with queue := t' :: rest,
                                 tail := if rest = [] then some t' else st.tail }
  match enqueueTask stB (paramsOfTask t') true 0 with
  | .error e => .error e
  | .ok (st1, e1) =>
    match skip st1 with
    | .error e => .error e
    | .ok (st2, e2) =>
      .ok (st2, (Ev.logError "failed:", st.length) :: e1 ++ e2)

/-- Settlement of the executing head's promise (`TMTask.execute`,
lines 87–99).  On resolution, `result.then` emits `ready` with the task
(running the manager's listener).  On rejection with `retry` set, the
`result.catch` handler runs; without `retry` no handler is attached and
nothing at all happens. -/
def settleHead (st : TMState) (o : Outcome) : Except String (TMState × Trace) :=
  match st.queue with
  | [] => .error "no task is executing"
  | t :: rest =>
    match o with
    | .resolve =>
      match readyListener st with
      | .error e => .error e
      | .ok (st', evs) => .ok (st', (Ev.ready t, st.length) :: evs)
    | .reject =>
      if t.retry then retryCatch st t rest
      else .ok (st, [])

/-- External interactions with a manager: a submission, the settlement
of the executing head's promise, or an external `skip()` call. -/
inductive Action where
  | enq (p : TMTaskParams) (allowDuplicate : Bool) (now : Nat)
  | settle (o : Outcome)
  | doSkip
deriving Repr, DecidableEq

/-- One interaction. -/
def step (st : TMState) : Action → Except String (TMState × Trace)
  | .enq p d now => enqueueTask st p d now
  | .settle o => settleHead st o
  | .doSkip => skip st

/-- A sequence of interactions, with the concatenated event trace. -/
def run (st : TMState) : List Action → Except String (TMState × Trace)
  | [] => .ok (st, [])
  | a :: as =>
    match step st a with
    | .error e => .error e
    | .ok (st1, e1) =>
      match run st1 as with
      | .error e => .error e
      | .ok (st2, e2) => .ok (st2, e1 ++ e2)

/-- Tasks carried by the `ready` events of a trace, in emission order:
the completion order of tasks. -/
def readyTasks (evs : Trace) : List TMTask :=
  evs.filterMap fun e =>
    match e.1 with
    | Ev.ready t => some t
    | _ => none

/-- Priorities of completed tasks, in completion order. -/
def readyPriorities (evs : Trace) : List Int :=
  (readyTasks evs).map TMTask.taskPriority

/-- Tasks whose execution begins during a trace. -/
def execStarts (evs : Trace) : List TMTask :=
  evs.filterMap fun e =>
    match e.1 with
    | Ev.execStart t => some t
    | _ => none

/-- The waiting portion of the chain: every node after the executing
head. -/
def waiting (st : TMState) : List TMTask :=
  st.queue.tail

/-- The waiting portion of the chain is sorted by non-decreasing
priority. -/
def SortedWaiting (st : TMState) : Prop :=
  List.Pairwise (fun a b => a.taskPriority ≤ b.taskPriority) (waiting st)

/-- `this.length` agrees with the number of linked nodes. -/
def LenInv (st : TMState) : Prop :=
  st.length = st.queue.length

/-- `this.queue.tail` is the last linked node (or null). -/
def TailInv (st : TMState) : Prop :=
  st.tail = st.queue.getLast?

/-- A sample task used to instantiate theorems on concrete inputs. -/
def wTask (i : Nat) (pri : Int) (r : Bool) : TMTask :=
  { taskType := "AppTask"
    id := i
    data := none
    taskPriority := pri
    taskFunc := some ()
    debug_task := false
    retry := r }

/-- A well-formed manager state holding the given chain. -/
def wState (q : List TMTask) : TMState :=
  { tmName := "TaskManager"
    queue := q
    tail := q.getLast?
    length := q.length
    tracked := q.map TMTask.id
    defaultTaskFunc := none
    debug_tasks := false }

/-- Parameters submitting a fresh task. -/
def wParams (i : Nat) (pri : Int) (r : Bool) : TMTaskParams :=
  { taskType := none
    id := some i
    data := none
    taskPriority := some pri
    taskFunc := some ()
    debug_task := false
    retry := r }

/-- The comparison of the insertion walk, as a boolean predicate. -/
def leP (c : Int) (x : TMTask) : Bool :=
  x.taskPriority ≤ c

lemma insertWalk_fst_eq (t : TMTask) (l : List TMTask) :
    (insertWalk t l).1 =
      l.takeWhile (leP t.taskPriority) ++ t :: l.dropWhile (leP t.taskPriority) := by
  induction l with
  | nil => simp [insertWalk]
  | cons x xs ih =>
    by_cases hx : x.taskPriority ≤ t.taskPriority
    · simp [insertWalk, hx, List.takeWhile_cons, List.dropWhile_cons, leP, ih]
    · simp [insertWalk, hx, List.takeWhile_cons, List.dropWhile_cons, leP]

lemma insertWalk_snd_eq (t : TMTask) (l : List TMTask) :
    (insertWalk t l).2 = l.all (leP t.taskPriority) := by
  induction l with
  | nil => simp [insertWalk]
  | cons x xs ih =>
    by_cases hx : x.taskPriority ≤ t.taskPriority
    · simp [insertWalk, hx, leP, ih]
    · simp [insertWalk, hx, leP]

lemma insertWalk_length (t : TMTask) (l : List TMTask) :
    (insertWalk t l).1.length = l.length + 1 := by
  induction l with
  | nil => simp [insertWalk]
  | cons x xs ih =>
    by_cases hx : x.taskPriority ≤ t.taskPriority
    · simp [insertWalk, hx, ih]
    · simp [insertWalk, hx]

lemma mem_insertWalk_fst {a t : TMTask} {l : List TMTask} :
    a ∈ (insertWalk t l).1 ↔ a = t ∨ a ∈ l := by
  rw [insertWalk_fst_eq]
  have h := List.takeWhile_append_dropWhile (p := leP t.taskPriority) (l := l)
  constructor
  · intro hm
    rcases List.mem_append.1 hm with h1 | h1
    · exact Or.inr (h ▸ List.mem_append.2 (Or.inl h1))
    · rcases List.mem_cons.1 h1 with h2 | h2
      · exact Or.inl h2
      · exact Or.inr (h ▸ List.mem_append.2 (Or.inr h2))
  · intro hm
    rcases hm with rfl | hm
    · exact List.mem_append.2 (Or.inr (List.mem_cons_self _ _))
    · rw [← h] at hm
      rcases List.mem_append.1 hm with h1 | h1
      · exact List.mem_append.2 (Or.inl h1)
      · exact List.mem_append.2 (Or.inr (List.mem_cons.2 (Or.inr h1)))

/-- Inserting via the walk preserves sortedness of the (waiting) chain. -/
lemma insertWalk_sorted {t : TMTask} {l : List TMTask}
    (h : List.Pairwise (fun a b => a.taskPriority ≤ b.taskPriority) l) :
    List.Pairwise (fun a b => a.taskPriority ≤ b.taskPriority) (insertWalk t l).1 := by
  induction l with
  | nil => simp [insertWalk]
  | cons x xs ih =>
    rcases List.pairwise_cons.1 h with ⟨hx, hxs⟩
    by_cases hle : x.taskPriority ≤ t.taskPriority
    · simp only [insertWalk, hle, if_pos]
      refine List.pairwise_cons.2 ⟨?_, ih hxs⟩
      intro a ha
      rcases mem_insertWalk_fst.1 ha with rfl | ha'
      · exact hle
      · exact hx a ha'
    · simp only [insertWalk, hle, if_neg, not_false_iff]
      refine List.pairwise_cons.2 ⟨?_, h⟩
      intro a ha
      rcases List.mem_cons.1 ha with rfl | ha'
      · exact le_of_not_le hle
      · exact le_trans (le_of_not_le hle) (hx a ha')

/-- In a sorted chain, everything the walk did not pass over has
strictly greater priority than the inserted task. -/
lemma sorted_dropWhile_gt {c : Int} {l : List TMTask}
    (h : List.Pairwise (fun a b => a.taskPriority ≤ b.taskPriority) l) :
    ∀ x ∈ l.dropWhile (leP c), c < x.taskPriority := by
  induction l with
  | nil => simp
  | cons y ys ih =>
    rcases List.pairwise_cons.1 h with ⟨hy, hys⟩
    by_cases hc : y.taskPriority ≤ c
    · rw [List.dropWhile_cons_of_pos (by simpa [leP] using hc)]
      exact ih hys
    · rw [List.dropWhile_cons_of_neg (by simpa [leP] using hc)]
      intro x hx
      rcases List.mem_cons.1 hx with rfl | hx'
      · exact lt_of_not_le hc
      · exact lt_of_lt_of_le (lt_of_not_le hc) (hy x hx')

/-! ## Equation lemmas for the operations -/

/-- The duplicate-drop branch of `enqueueTask`. -/
lemma enqueueTask_drop_eq (st : TMState) (p : TMTaskParams) (d : Bool) (now : Nat)
    (hmem : (normalizeTask st p now).id ∈ st.tracked) (hd : d = false) :
    enqueueTask st p d now = .ok (st,
      (if p.debug_task then [(Ev.logDebug "taskType | id | data", st.length)] else []) ++
        [(Ev.logLog "Enqueuing Task on TaskManager", st.length),
         (Ev.logWarn "Data is already in queue", st.length)]) := by
  simp [enqueueTask, hmem, hd]

/-- The queue-start branch of `enqueueTask`, when the new task has a
work function to call. -/
lemma enqueueTask_start_eq (st : TMState) (p : TMTaskParams) (d : Bool) (now : Nat)
    (hq : st.queue = [])
    (hc : (normalizeTask st p now).id ∈ st.tracked → d = true)
    (hf : (normalizeTask st p now).taskFunc = some ()) :
    enqueueTask st p d now = .ok
      ({ st with tracked := st.tracked.insert (normalizeTask st p now).id
                 queue := [normalizeTask st p now]
                 tail := some (normalizeTask st p now)
                 length := st.length + 1 },
        ((if p.debug_task then [(Ev.logDebug "taskType | id | data", st.length)] else []) ++
          (Ev.logLog "Enqueuing Task on TaskManager", st.length) ::
            (Ev.logLog "Starting new queue with", st.length) ::
              (Ev.logDebug "Executing task", st.length) ::
                (Ev.execStart (normalizeTask st p now), st.length) ::
                  (if st.length + 1 > 10 then [(Ev.logWarn "LONG QUEUE", st.length + 1)] else []))) := by
  simp [enqueueTask, hq, executeStart, hf]
  exact hc

/-- The queue-start branch of `enqueueTask` when no work function is
available: `this.taskFunc(this.data)` throws, uncaught. -/
lemma enqueueTask_start_err (st : TMState) (p : TMTaskParams) (d : Bool) (now : Nat)
    (hq : st.queue = [])
    (hc : (normalizeTask st p now).id ∈ st.tracked → d = true)
    (hf : (normalizeTask st p now).taskFunc = none) :
    enqueueTask st p d now = .error "TypeError: taskFunc is not a function" := by
  simp [enqueueTask, hq, executeStart, hf]
  exact hc

/-- The ordered-insertion branch of `enqueueTask`. -/
lemma enqueueTask_append_eq (st : TMState) (p : TMTaskParams) (d : Bool) (now : Nat)
    (h : TMTask) (rest : List TMTask) (hq : st.queue = h :: rest)
    (hc : (normalizeTask st p now).id ∈ st.tracked → d = true) :
    enqueueTask st p d now = .ok
      ({ st with tracked := st.tracked.insert (normalizeTask st p now).id
                 queue := h :: (insertWalk (normalizeTask st p now) rest).1
                 tail := if (insertWalk (normalizeTask st p now) rest).2
                         then some (normalizeTask st p now) else st.tail
                 length := st.length + 1 },
        ((if p.debug_task then [(Ev.logDebug "taskType | id | data", st.length)] else []) ++
          (Ev.logLog "Enqueuing Task on TaskManager", st.length) ::
            (Ev.logLog "Appending to queue", st.length) ::
              (if st.length + 1 > 10 then [(Ev.logWarn "LONG QUEUE", st.length + 1)] else []))) := by
  simp [enqueueTask, hq]
  exact hc

/-- The `ready` listener when the completed task was the only node. -/
lemma readyListener_last_eq (st : TMState) (t : TMTask) (hq : st.queue = [t]) :
    readyListener st = .ok
      ({ st with tracked := st.tracked.erase t.id
                 queue := []
                 tail := none
                 length := st.length - 1 },
        (Ev.logInfo "Task Completed for", st.length) ::
          (if st.debug_tasks then [(Ev.logLog "console.log(task)", st.length)] else []) ++
            [(Ev.logInfo "Queue Complete", st.length), (Ev.complete, st.length)]) := by
  simp [readyListener, hq]

/-- The `ready` listener when a successor exists and can be executed. -/
lemma readyListener_cons_eq (st : TMState) (t nx : TMTask) (rest : List TMTask)
    (hq : st.queue = t :: nx :: rest) (hf : nx.taskFunc = some ()) :
    readyListener st = .ok
      ({ st with tracked := st.tracked.erase t.id
                 queue := nx :: rest
                 length := st.length - 1 },
        (Ev.logInfo "Task Completed for", st.length) ::
          (if st.debug_tasks then [(Ev.logLog "console.log(task)", st.length)] else []) ++
            [(Ev.logInfo "Executing next task", st.length),
             (Ev.logDebug "Executing task", st.length),
             (Ev.execStart nx, st.length)]) := by
  simp [readyListener, hq, executeStart, hf]

/-- The `ready` listener when the successor lacks a work function:
dispatching it throws. -/
lemma readyListener_cons_err (st : TMState) (t nx : TMTask) (rest : List TMTask)
    (hq : st.queue = t :: nx :: rest) (hf : nx.taskFunc = none) :
    readyListener st = .error "TypeError: taskFunc is not a function" := by
  simp [readyListener, hq, executeStart, hf]

/-- `skip` on a non-empty chain forwards to the `ready` listener. -/
lemma skip_pos_eq (st : TMState) (t : TMTask) (rest : List TMTask) (st' : TMState)
    (evs : Trace) (hl : st.length > 0) (hq : st.queue = t :: rest)
    (hr : readyListener st = .ok (st', evs)) :
    skip st = .ok (st', (Ev.logWarn "Skipping task at head of queue", st.length) ::
                        (Ev.ready t, st.length) :: evs) := by
  simp [skip, hl, hq, hr]

/-- `skip` with nothing tracked: error-level diagnostic, no mutation. -/
lemma skip_zero_eq (st : TMState) (hl : ¬ st.length > 0) :
    skip st = .ok (st, [(Ev.logError "TM.skip() failed: queue is empty", st.length)]) := by
  simp [skip, hl]

/-- Successful settlement: `result.then` emits `ready` with the task. -/
lemma settleHead_resolve_eq (st : TMState) (t : TMTask) (rest : List TMTask)
    (st' : TMState) (evs : Trace) (hq : st.queue = t :: rest)
    (hr : readyListener st = .ok (st', evs)) :
    settleHead st .resolve = .ok (st', (Ev.ready t, st.length) :: evs) := by
  simp [settleHead, hq, hr]

/-- A failing dispatch inside the listener propagates out of the
settlement. -/
lemma settleHead_resolve_err (st : TMState) (t : TMTask) (rest : List TMTask)
    (e : String) (hq : st.queue = t :: rest)
    (hr : readyListener st = .error e) :
    settleHead st .resolve = .error e := by
  simp [settleHead, hq, hr]

/-- Failed settlement of a task without `retry`: no handler is
attached, nothing is emitted and nothing changes. -/
lemma settleHead_reject_noRetry_eq (st : TMState) (t : TMTask) (rest : List TMTask)
    (hq : st.queue = t :: rest) (hret : t.retry = false) :
    settleHead st .reject = .ok (st, []) := by
  simp [settleHead, hq, hret]

/-- Failed settlement of a task with `retry` runs the catch handler. -/
lemma settleHead_reject_retry_eq (st : TMState) (t : TMTask) (rest : List TMTask)
    (hq : st.queue = t :: rest) (hret : t.retry = true) :
    settleHead st .reject = retryCatch st t rest := by
  simp [settleHead, hq, hret]

/-- The catch handler, unfolded on its two sub-calls. -/
lemma retryCatch_eq (st : TMState) (t : TMTask) (rest : List TMTask)
    (st1 st2 : TMState) (e1 e2 : Trace)
    (he : enqueueTask { st with
            queue := { t with taskPriority := retryBumpPriority t.taskPriority } :: rest,
            tail := if rest = [] then
                some { t with taskPriority := retryBumpPriority t.taskPriority }
              else st.tail }
          (paramsOfTask { t with taskPriority := retryBumpPriority t.taskPriority }) true 0 =
          .ok (st1, e1))
    (hs : skip st1 = .ok (st2, e2)) :
    retryCatch st t rest = .ok (st2, (Ev.logError "failed:", st.length) :: e1 ++ e2) := by
  simp [retryCatch, he, hs]

/-! ## Case analyses of successful operations -/

lemma enqueueTask_ok_cases {st : TMState} {p : TMTaskParams} {d : Bool} {now : Nat}
    {st' : TMState} {evs : Trace} (h : enqueueTask st p d now = .ok (st', evs)) :
    (st' = st) ∨
    (st.queue = [] ∧
      st' = { st with tracked := st.tracked.insert (normalizeTask st p now).id
                      queue := [normalizeTask st p now]
                      tail := some (normalizeTask st p now)
                      length := st.length + 1 }) ∨
    (∃ hd rest, st.queue = hd :: rest ∧
      st' = { st with tracked := st.tracked.insert (normalizeTask st p now).id
                      queue := hd :: (insertWalk (normalizeTask st p now) rest).1
                      tail := if (insertWalk (normalizeTask st p now) rest).2
                              then some (normalizeTask st p now) else st.tail
                      length := st.length + 1 }) := by
  by_cases hc : (normalizeTask st p now).id ∈ st.tracked → d = true
  · cases hq : st.queue with
    | nil =>
      cases hf : (normalizeTask st p now).taskFunc with
      | none =>
        rw [enqueueTask_start_err st p d now hq hc hf] at h
        cases h
      | some u =>
        cases u
        rw [enqueueTask_start_eq st p d now hq hc hf] at h
        simp only [Except.ok.injEq, Prod.mk.injEq] at h
        exact Or.inr (Or.inl ⟨rfl, h.1.symm⟩)
    | cons hd rest =>
      rw [enqueueTask_append_eq st p d now hd rest hq hc] at h
      simp only [Except.ok.injEq, Prod.mk.injEq] at h
      exact Or.inr (Or.inr ⟨hd, rest, rfl, h.1.symm⟩)
  · push_neg at hc
    obtain ⟨hmem, hd⟩ := hc
    rw [enqueueTask_drop_eq st p d now hmem (by simpa using hd)] at h
    simp only [Except.ok.injEq, Prod.mk.injEq] at h
    exact Or.inl h.1.symm

lemma readyListener_ok_cases {st : TMState} {st' : TMState} {evs : Trace}
    (h : readyListener st = .ok (st', evs)) :
    ∃ t rest, st.queue = t :: rest ∧
      ((rest = [] ∧
        st' = { st with tracked := st.tracked.erase t.id
                        queue := []
                        tail := none
                        length := st.length - 1 }) ∨
       (rest ≠ [] ∧
        st' = { st with tracked := st.tracked.erase t.id
                        queue := rest
                        length := st.length - 1 })) := by
  cases hq : st.queue with
  | nil => rw [readyListener, hq] at h; cases h
  | cons t rest =>
    refine ⟨t, rest, rfl, ?_⟩
    cases rest with
    | nil =>
      rw [readyListener_last_eq st t hq] at h
      simp only [Except.ok.injEq, Prod.mk.injEq] at h
      exact Or.inl ⟨rfl, h.1.symm⟩
    | cons nx nrest =>
      cases hf : nx.taskFunc with
      | none => rw [readyListener_cons_err st t nx nrest hq hf] at h; cases h
      | some u =>
        cases u
        rw [readyListener_cons_eq st t nx nrest hq hf] at h
        simp only [Except.ok.injEq, Prod.mk.injEq] at h
        exact Or.inr ⟨by simp, h.1.symm⟩

lemma skip_ok_cases {st : TMState} {st' : TMState} {evs : Trace}
    (h : skip st = .ok (st', evs)) :
    (st' = st) ∨ (∃ evs', readyListener st = .ok (st', evs')) := by
  by_cases hl : st.length > 0
  · cases hq : st.queue with
    | nil => rw [skip, if_pos hl, hq] at h; cases h
    | cons t rest =>
      cases hr : readyListener st with
      | error e =>
        rw [skip, if_pos hl, hq] at h
        rw [readyListener, hq] at hr
        rw [readyListener, hq] at h
        rw [hr] at h
        cases h
      | ok r =>
        obtain ⟨rst, revs⟩ := r
        rw [skip_pos_eq st t rest rst revs hl hq hr] at h
        simp only [Except.ok.injEq, Prod.mk.injEq] at h
        exact Or.inr ⟨revs, by rw [h.1]⟩
  · rw [skip_zero_eq st hl] at h
    simp only [Except.ok.injEq, Prod.mk.injEq] at h
    exact Or.inl h.1.symm

lemma retryCatch_ok_cases {st : TMState} {t : TMTask} {rest : List TMTask}
    {st' : TMState} {evs : Trace} (h : retryCatch st t rest = .ok (st', evs)) :
    ∃ st1 e1 e2,
      enqueueTask { st with
          queue := { t with taskPriority := retryBumpPriority t.taskPriority } :: rest,
          tail := if rest = [] then
              some { t with taskPriority := retryBumpPriority t.taskPriority }
            else st.tail }
        (paramsOfTask { t with taskPriority := retryBumpPriority t.taskPriority }) true 0 =
        .ok (st1, e1) ∧
      skip st1 = .ok (st', e2) := by
  cases he : enqueueTask { st with
      queue := { t with taskPriority := retryBumpPriority t.taskPriority } :: rest,
      tail := if rest = [] then
          some { t with taskPriority := retryBumpPriority t.taskPriority }
        else st.tail }
    (paramsOfTask { t with taskPriority := retryBumpPriority t.taskPriority }) true 0 with
  | error e => simp [retryCatch, he] at h
  | ok r1 =>
    obtain ⟨st1, e1⟩ := r1
    cases hs : skip st1 with
    | error e => simp [retryCatch, he, hs] at h
    | ok r2 =>
      obtain ⟨st2, e2⟩ := r2
      rw [retryCatch_eq st t rest st1 st2 e1 e2 he hs] at h
      simp only [Except.ok.injEq, Prod.mk.injEq] at h
      exact ⟨st1, e1, e2, rfl, hs.trans (by rw [h.1])⟩

lemma settleHead_ok_cases {st : TMState} {o : Outcome} {st' : TMState} {evs : Trace}
    (h : settleHead st o = .ok (st', evs)) :
    (∃ evs', readyListener st = .ok (st', evs')) ∨
    (st' = st) ∨
    (∃ t rest, st.queue = t :: rest ∧ t.retry = true ∧
      retryCatch st t rest = .ok (st', evs)) := by
  cases hq : st.queue with
  | nil => rw [settleHead, hq] at h; cases h
  | cons t rest =>
    cases o with
    | resolve =>
      cases hr : readyListener st with
      | error e =>
        rw [settleHead_resolve_err st t rest e hq hr] at h
        cases h
      | ok r =>
        obtain ⟨rst, revs⟩ := r
        rw [settleHead_resolve_eq st t rest rst revs hq hr] at h
        simp only [Except.ok.injEq, Prod.mk.injEq] at h
        exact Or.inl ⟨revs, by rw [h.1]⟩
    | reject =>
      cases hret : t.retry with
      | false =>
        rw [settleHead_reject_noRetry_eq st t rest hq hret] at h
        simp only [Except.ok.injEq, Prod.mk.injEq] at h
        exact Or.inr (Or.inl h.1.symm)
      | true =>
        rw [settleHead_reject_retry_eq st t rest hq hret] at h
        exact Or.inr (Or.inr ⟨t, rest, rfl, hret, h⟩)

/-! ## Invariant preservation -/

lemma lenInv_enqueue {st : TMState} {p : TMTaskParams} {d : Bool} {now : Nat}
    {st' : TMState} {evs : Trace} (h : enqueueTask st p d now = .ok (st', evs))
    (hL : LenInv st) : LenInv st' := by
  rcases enqueueTask_ok_cases h with rfl | ⟨hq, rfl⟩ | ⟨hd, rest, hq, rfl⟩
  · exact hL
  · simp [LenInv] at hL ⊢
    rw [hq] at hL
    simp at hL
    omega
  · simp [LenInv, insertWalk_length] at hL ⊢
    rw [hq] at hL
    simp at hL
    omega

lemma tailInv_enqueue {st : TMState} {p : TMTaskParams} {d : Bool} {now : Nat}
    {st' : TMState} {evs : Trace} (h : enqueueTask st p d now = .ok (st', evs))
    (hT : TailInv st) : TailInv st' := by
  rcases enqueueTask_ok_cases h with rfl | ⟨hq, rfl⟩ | ⟨hd, rest, hq, rfl⟩
  · exact hT
  · simp [TailInv]
  · set t := normalizeTask st p now with ht
    simp only [TailInv]
    by_cases hall : ∀ x ∈ rest, leP t.taskPriority x
    · have h2 : (insertWalk t rest).2 = true := by
        rw [insertWalk_snd_eq]
        exact List.all_eq_true.mpr hall
      have h1 : (insertWalk t rest).1 = rest ++ [t] := by
        rw [insertWalk_fst_eq, List.takeWhile_eq_self_iff.mpr hall,
          List.dropWhile_eq_nil_iff.mpr hall]
      simp only [h2, if_true, h1]
      have : hd :: (rest ++ [t]) = (hd :: rest) ++ [t] := by simp
      rw [this, List.getLast?_concat]
    · have h2 : (insertWalk t rest).2 = false := by
        rw [insertWalk_snd_eq]
        cases hb : rest.all (leP t.taskPriority) with
        | false => rfl
        | true => exact absurd (List.all_eq_true.mp hb) hall
      have hdrop : rest.dropWhile (leP t.taskPriority) ≠ [] := by
        intro hnil
        exact hall (List.dropWhile_eq_nil_iff.mp hnil)
      simp only [h2, if_false, Bool.false_eq_true]
      rw [insertWalk_fst_eq]
      have hrw : hd :: (rest.takeWhile (leP t.taskPriority) ++
          t :: rest.dropWhile (leP t.taskPriority)) =
          (hd :: rest.takeWhile (leP t.taskPriority) ++ [t]) ++
            rest.dropWhile (leP t.taskPriority) := by simp
      rw [hrw, List.getLast?_append_of_ne_nil _ hdrop]
      have hrest : (hd :: rest).getLast? = (rest.dropWhile (leP t.taskPriority)).getLast? := by
        have : hd :: rest = (hd :: rest.takeWhile (leP t.taskPriority)) ++
            rest.dropWhile (leP t.taskPriority) := by
          simp [List.takeWhile_append_dropWhile]
        rw [this, List.getLast?_append_of_ne_nil _ hdrop]
      rw [hT, hq, hrest]

lemma sorted_enqueue {st : TMState} {p : TMTaskParams} {d : Bool} {now : Nat}
    {st' : TMState} {evs : Trace} (h : enqueueTask st p d now = .ok (st', evs))
    (hS : SortedWaiting st) : SortedWaiting st' := by
  rcases enqueueTask_ok_cases h with rfl | ⟨hq, rfl⟩ | ⟨hd, rest, hq, rfl⟩
  · exact hS
  · simp [SortedWaiting, waiting]
  · simp only [SortedWaiting, waiting, List.tail_cons] at hS ⊢
    rw [hq] at hS
    simp only [List.tail_cons] at hS
    exact insertWalk_sorted hS

lemma lenInv_ready {st st' : TMState} {evs : Trace}
    (h : readyListener st = .ok (st', evs)) (hL : LenInv st) : LenInv st' := by
  rcases readyListener_ok_cases h with ⟨t, rest, hq, ⟨rfl, rfl⟩ | ⟨hrest, rfl⟩⟩ <;>
  · simp [LenInv] at hL ⊢
    rw [hq] at hL
    simp at hL
    omega

lemma tailInv_ready {st st' : TMState} {evs : Trace}
    (h : readyListener st = .ok (st', evs)) (hT : TailInv st) : TailInv st' := by
  rcases readyListener_ok_cases h with ⟨t, rest, hq, ⟨hrest, rfl⟩ | ⟨hrest, rfl⟩⟩
  · simp [TailInv]
  · cases rest with
    | nil => exact absurd rfl hrest
    | cons nx nrest =>
      simp only [TailInv] at hT ⊢
      rw [hT, hq, List.getLast?_cons_cons]

lemma sorted_ready {st st' : TMState} {evs : Trace}
    (h : readyListener st = .ok (st', evs)) (hS : SortedWaiting st) : SortedWaiting st' := by
  rcases readyListener_ok_cases h with ⟨t, rest, hq, ⟨hrest, rfl⟩ | ⟨hrest, rfl⟩⟩
  · simp [SortedWaiting, waiting]
  · cases rest with
    | nil => exact absurd rfl hrest
    | cons nx nrest =>
      simp only [SortedWaiting, waiting, List.tail_cons] at hS ⊢
      rw [hq] at hS
      simp only [List.tail_cons] at hS
      exact (List.pairwise_cons.mp hS).2

lemma lenInv_skip {st st' : TMState} {evs : Trace}
    (h : skip st = .ok (st', evs)) (hL : LenInv st) : LenInv st' := by
  rcases skip_ok_cases h with rfl | ⟨evs', h'⟩
  · exact hL
  · exact lenInv_ready h' hL

lemma tailInv_skip {st st' : TMState} {evs : Trace}
    (h : skip st = .ok (st', evs)) (hT : TailInv st) : TailInv st' := by
  rcases skip_ok_cases h with rfl | ⟨evs', h'⟩
  · exact hT
  · exact tailInv_ready h' hT

lemma sorted_skip {st st' : TMState} {evs : Trace}
    (h : skip st = .ok (st', evs)) (hS : SortedWaiting st) : SortedWaiting st' := by
  rcases skip_ok_cases h with rfl | ⟨evs', h'⟩
  · exact hS
  · exact sorted_ready h' hS

lemma lenInv_settle {st : TMState} {o : Outcome} {st' : TMState} {evs : Trace}
    (h : settleHead st o = .ok (st', evs)) (hL : LenInv st) : LenInv st' := by
  rcases settleHead_ok_cases h with ⟨evs', h'⟩ | rfl | ⟨t, rest, hq, hret, hcatch⟩
  · exact lenInv_ready h' hL
  · exact hL
  · obtain ⟨st1, e1, e2, he, hs⟩ := retryCatch_ok_cases hcatch
    have hLB : LenInv { st with
        queue := { t with taskPriority := retryBumpPriority t.taskPriority } :: rest,
        tail := if rest = [] then
            some { t with taskPriority := retryBumpPriority t.taskPriority }
          else st.tail } := by
      simp [LenInv] at hL ⊢
      rw [hq] at hL
      simpa using hL
    exact lenInv_skip hs (lenInv_enqueue he hLB)

lemma tailInv_settle {st : TMState} {o : Outcome} {st' : TMState} {evs : Trace}
    (h : settleHead st o = .ok (st', evs)) (hL : TailInv st) : TailInv st' := by
  rcases settleHead_ok_cases h with ⟨evs', h'⟩ | rfl | ⟨t, rest, hq, hret, hcatch⟩
  · exact tailInv_ready h' hL
  · exact hL
  · obtain ⟨st1, e1, e2, he, hs⟩ := retryCatch_ok_cases hcatch
    have hTB : TailInv { st with
        queue := { t with taskPriority := retryBumpPriority t.taskPriority } :: rest,
        tail := if rest = [] then
            some { t with taskPriority := retryBumpPriority t.taskPriority }
          else st.tail } := by
      simp only [TailInv] at hL ⊢
      cases rest with
      | nil => simp
      | cons a l =>
        rw [hL, hq]
        simp [List.getLast?_cons_cons]
    exact tailInv_skip hs (tailInv_enqueue he hTB)

lemma sorted_settle {st : TMState} {o : Outcome} {st' : TMState} {evs : Trace}
    (h : settleHead st o = .ok (st', evs)) (hS : SortedWaiting st) : SortedWaiting st' := by
  rcases settleHead_ok_cases h with ⟨evs', h'⟩ | rfl | ⟨t, rest, hq, hret, hcatch⟩
  · exact sorted_ready h' hS
  · exact hS
  · obtain ⟨st1, e1, e2, he, hs⟩ := retryCatch_ok_cases hcatch
    have hSB : SortedWaiting { st with
        queue := { t with taskPriority := retryBumpPriority t.taskPriority } :: rest,
        tail := if rest = [] then
            some { t with taskPriority := retryBumpPriority t.taskPriority }
          else st.tail } := by
      simp only [SortedWaiting, waiting, List.tail_cons] at hS ⊢
      rw [hq] at hS
      simpa using hS
    exact sorted_skip hs (sorted_enqueue he hSB)

lemma lenInv_step {st : TMState} {a : Action} {st' : TMState} {evs : Trace}
    (h : step st a = .ok (st', evs)) (hL : LenInv st) : LenInv st' := by
  cases a with
  | enq p d now => exact lenInv_enqueue h hL
  | settle o => exact lenInv_settle h hL
  | doSkip => exact lenInv_skip h hL

lemma tailInv_step {st : TMState} {a : Action} {st' : TMState} {evs : Trace}
    (h : step st a = .ok (st', evs)) (hT : TailInv st) : TailInv st' := by
  cases a with
  | enq p d now => exact tailInv_enqueue h hT
  | settle o => exact tailInv_settle h hT
  | doSkip => exact tailInv_skip h hT

lemma sorted_step {st : TMState} {a : Action} {st' : TMState} {evs : Trace}
    (h : step st a = .ok (st', evs)) (hS : SortedWaiting st) : SortedWaiting st' := by
  cases a with
  | enq p d now => exact sorted_enqueue h hS
  | settle o => exact sorted_settle h hS
  | doSkip => exact sorted_skip h hS

lemma run_cons_eq {st st1 st2 : TMState} {a : Action} {as : List Action} {e1 e2 : Trace}
    (hst : step st a = .ok (st1, e1)) (hr : run st1 as = .ok (st2, e2)) :
    run st (a :: as) = .ok (st2, e1 ++ e2) := by
  simp [run, hst, hr]

lemma run_ok_cons {st : TMState} {a : Action} {as : List Action} {st' : TMState} {evs : Trace}
    (h : run st (a :: as) = .ok (st', evs)) :
    ∃ st1 e1 e2, step st a = .ok (st1, e1) ∧ run st1 as = .ok (st', e2) ∧ evs = e1 ++ e2 := by
  cases hst : step st a with
  | error e => simp [run, hst] at h
  | ok r1 =>
    obtain ⟨st1, e1⟩ := r1
    cases hr : run st1 as with
    | error e => simp [run, hst, hr] at h
    | ok r2 =>
      obtain ⟨st2, e2⟩ := r2
      rw [run_cons_eq hst hr] at h
      simp only [Except.ok.injEq, Prod.mk.injEq] at h
      exact ⟨st1, e1, e2, rfl, hr.trans (by rw [h.1]), h.2.symm⟩

lemma lenInv_run {st : TMState} {as : List Action} {st' : TMState} {evs : Trace}
    (h : run st as = .ok (st', evs)) (hL : LenInv st) : LenInv st' := by
  induction as generalizing st evs with
  | nil =>
    rw [run] at h
    simp only [Except.ok.injEq, Prod.mk.injEq] at h
    exact h.1 ▸ hL
  | cons a as ih =>
    obtain ⟨st1, e1, e2, hst, hr, rfl⟩ := run_ok_cons h
    exact ih hr (lenInv_step hst hL)

lemma tailInv_run {st : TMState} {as : List Action} {st' : TMState} {evs : Trace}
    (h : run st as = .ok (st', evs)) (hT : TailInv st) : TailInv st' := by
  induction as generalizing st evs with
  | nil =>
    rw [run] at h
    simp only [Except.ok.injEq, Prod.mk.injEq] at h
    exact h.1 ▸ hT
  | cons a as ih =>
    obtain ⟨st1, e1, e2, hst, hr, rfl⟩ := run_ok_cons h
    exact ih hr (tailInv_step hst hT)

lemma sorted_run {st : TMState} {as : List Action} {st' : TMState} {evs : Trace}
    (h : run st as = .ok (st', evs)) (hS : SortedWaiting st) : SortedWaiting st' := by
  induction as generalizing st evs with
  | nil =>
    rw [run] at h
    simp only [Except.ok.injEq, Prod.mk.injEq] at h
    exact h.1 ▸ hS
  | cons a as ih =>
    obtain ⟨st1, e1, e2, hst, hr, rfl⟩ := run_ok_cons h
    exact ih hr (sorted_step hst hS)

/-! ## Claims -/

/-- C8: the retry failure branch increments a task's priority by
exactly one iff its current priority is strictly below 5; repeated
retries monotonically raise the priority toward 5, and the value
produced by this path never exceeds the maximum of the starting
priority and 5 (in particular never exceeds 5 when starting at or
below it). -/
theorem c8_retry_priority_demotion :
    ∀ p : Int,
      (retryBumpPriority p = p + 1 ↔ p < 5) ∧
      p ≤ retryBumpPriority p ∧
      retryBumpPriority p ≤ max p 5 ∧
      ∀ n : Nat, retryBumpPriority^[n] p = min (max p 5) (p + n) := by
  intro p
  refine ⟨⟨?_, ?_⟩, ?_, ?_, ?_⟩
  · intro h
    by_contra hlt
    rw [retryBumpPriority, if_neg hlt] at h
    omega
  · intro h
    rw [retryBumpPriority, if_pos h]
  · rw [retryBumpPriority]
    split_ifs <;> omega
  · rw [retryBumpPriority]
    rcases le_total p 5 with h | h
    · rw [max_eq_right h]
      split_ifs <;> omega
    · rw [max_eq_left h]
      split_ifs <;> omega
  · intro n
    induction n with
    | zero =>
      rw [Function.iterate_zero_apply]
      rcases le_total p 5 with h | h
      · rw [max_eq_right h]
        omega
      · rw [max_eq_left h]
        omega
    | succ n ih =>
      rw [Function.iterate_succ_apply', ih, retryBumpPriority]
      rcases le_total p 5 with h | h
      · rw [max_eq_right h] at ih ⊢
        rw [min_def]
        split_ifs <;> [skip; skip; skip; skip] <;> omega
      · rw [max_eq_left h] at ih ⊢
        rw [min_def]
        split_ifs <;> omega

/-- C9: `skip()` on a manager tracking no tasks emits a single
error-level diagnostic and performs no mutation at all — the state is
returned unchanged and no `ready` event is emitted. -/
theorem c9_skip_empty_noop (st : TMState) (hq : st.queue = []) (hL : LenInv st) :
    skip st = .ok (st, [(Ev.logError "TM.skip() failed: queue is empty", st.length)]) ∧
    readyTasks [(Ev.logError "TM.skip() failed: queue is empty", st.length)] = [] := by
  have hzero : st.length = 0 := by
    rw [LenInv, hq] at hL
    simpa using hL
  refine ⟨skip_zero_eq st (by omega), rfl⟩

/-- Witness for C9 at a concrete empty manager. -/
theorem c9_skip_empty_noop_witness :
    skip (wState []) =
      .ok (wState [], [(Ev.logError "TM.skip() failed: queue is empty", 0)]) := by
  have h := c9_skip_empty_noop (wState []) rfl rfl
  exact h.1

/-- C6: submitting a task whose id is already tracked, without the
bypass flag, is dropped: the state (length, chain, tail,
duplicate-membership set) is returned unchanged, no `ready`,
`complete` or execution-start event occurs, no error-level diagnostic
is emitted, and the drop is reported by a warning-level diagnostic
(beside the entry log line that every call emits). -/
theorem c6_duplicate_dropped (st : TMState) (p : TMTaskParams) (now : Nat)
    (hmem : (normalizeTask st p now).id ∈ st.tracked) :
    ∃ tr : Trace,
      enqueueTask st p false now = .ok (st, tr) ∧
      readyTasks tr = [] ∧
      execStarts tr = [] ∧
      (∀ x ∈ tr, x.1 ≠ Ev.complete) ∧
      (∀ x ∈ tr, ∀ m, x.1 ≠ Ev.logError m) ∧
      (Ev.logWarn "Data is already in queue", st.length) ∈ tr := by
  refine ⟨_, enqueueTask_drop_eq st p false now hmem rfl, ?_, ?_, ?_, ?_, ?_⟩ <;>
    by_cases hdbg : p.debug_task <;>
      simp [hdbg, readyTasks, execStarts]

/-- Witness for C6: re-submitting id 1 to a manager already tracking
it leaves the one-task state untouched. -/
theorem c6_duplicate_dropped_witness :
    enqueueTask (wState [wTask 1 5 false]) (wParams 1 3 false) false 9 =
      .ok (wState [wTask 1 5 false],
        [(Ev.logLog "Enqueuing Task on TaskManager", 1),
         (Ev.logWarn "Data is already in queue", 1)]) ∧
    (Ev.logWarn "Data is already in queue", (1 : Int)) ∈
      [(Ev.logLog "Enqueuing Task on TaskManager", (1 : Int)),
       (Ev.logWarn "Data is already in queue", 1)] := by
  obtain ⟨tr, h, -, -, -, -, hw⟩ :=
    c6_duplicate_dropped (wState [wTask 1 5 false]) (wParams 1 3 false) 9 (by decide)
  have hcalc : enqueueTask (wState [wTask 1 5 false]) (wParams 1 3 false) false 9 =
      .ok (wState [wTask 1 5 false],
        [(Ev.logLog "Enqueuing Task on TaskManager", 1),
         (Ev.logWarn "Data is already in queue", 1)]) := rfl
  have h2 : tr = [(Ev.logLog "Enqueuing Task on TaskManager", 1),
      (Ev.logWarn "Data is already in queue", 1)] := by
    have h3 := h.symm.trans hcalc
    simpa using h3
  exact ⟨hcalc, h2 ▸ hw⟩

/-- C7: when the head task's promise rejects and `retryOnFailure` is
not set, no handler observes the failure: no event (in particular no
`ready` and no `complete`) is emitted, the whole state is unchanged,
and any number of further such settlements leaves the chain stalled at
the same head forever. -/
theorem c7_unretried_failure_stalls (st : TMState) (t : TMTask) (rest : List TMTask)
    (hq : st.queue = t :: rest) (hret : t.retry = false) :
    settleHead st .reject = .ok (st, []) ∧
    ∀ n : Nat, run st (List.replicate n (Action.settle .reject)) = .ok (st, []) := by
  have h1 := settleHead_reject_noRetry_eq st t rest hq hret
  refine ⟨h1, ?_⟩
  intro n
  induction n with
  | zero => rfl
  | succ n ih =>
    rw [List.replicate_succ]
    exact run_cons_eq (a := Action.settle .reject) h1 ih

/-- Witness for C7: a concrete non-retry head, rejected three times,
never advances. -/
theorem c7_unretried_failure_stalls_witness :
    settleHead (wState [wTask 1 5 false, wTask 2 5 false]) .reject =
      .ok (wState [wTask 1 5 false, wTask 2 5 false], []) ∧
    run (wState [wTask 1 5 false, wTask 2 5 false])
        (List.replicate 3 (Action.settle .reject)) =
      .ok (wState [wTask 1 5 false, wTask 2 5 false], []) := by
  have h := c7_unretried_failure_stalls (wState [wTask 1 5 false, wTask 2 5 false])
    (wTask 1 5 false) [wTask 2 5 false] rfl rfl
  exact ⟨h.1, h.2 3⟩

/-- C10: a task with neither its own work function nor a configured
default fails at dispatch: the synchronous call throws a fatal error
that nothing in the scheduler catches, whether the dispatch happens in
`execute` itself, at `enqueueTask` starting an empty queue, or in the
`ready` listener advancing to such a task. -/
theorem c10_missing_work_function :
    (∀ (t : TMTask) (len : Int), t.taskFunc = none →
        executeStart t len = .error "TypeError: taskFunc is not a function") ∧
    (∀ (st : TMState) (p : TMTaskParams) (d : Bool) (now : Nat),
        st.queue = [] → st.defaultTaskFunc = none → p.taskFunc = none →
        ((normalizeTask st p now).id ∈ st.tracked → d = true) →
        enqueueTask st p d now = .error "TypeError: taskFunc is not a function") ∧
    (∀ (st : TMState) (t nx : TMTask) (rest : List TMTask),
        st.queue = t :: nx :: rest → nx.taskFunc = none →
        readyListener st = .error "TypeError: taskFunc is not a function") := by
  refine ⟨?_, ?_, ?_⟩
  · intro t len hf
    rw [executeStart, hf]
  · intro st p d now hq hdf hp hc
    refine enqueueTask_start_err st p d now hq hc ?_
    simp [normalizeTask, hp, hdf]
  · intro st t nx rest hq hf
    exact readyListener_cons_err st t nx rest hq hf

/-- Witness for C10: submitting a function-less task to an idle manager
with no default work function throws. -/
theorem c10_missing_work_function_witness :
    enqueueTask (wState []) { id := some 1 } false 0 =
      .error "TypeError: taskFunc is not a function" := by
  exact c10_missing_work_function.2.1 (wState []) { id := some 1 } false 0
    rfl rfl rfl (by decide)

/-- C2: enqueueing onto a non-empty chain inserts by the walk — after
the longest prefix of waiting tasks whose priority is less-than-or-
equal to the new task's (so FIFO among equal priorities) and, when the
waiting chain is sorted, before every waiting task of strictly greater
priority; the insertion is never at the head position, and `tail` is
reassigned to the new task exactly when the walk stopped at the end of
the chain and is left alone otherwise. -/
theorem c2_ordered_insertion (st : TMState) (p : TMTaskParams) (d : Bool) (now : Nat)
    (h : TMTask) (rest : List TMTask) (st' : TMState) (evs : Trace)
    (hq : st.queue = h :: rest)
    (hc : (normalizeTask st p now).id ∈ st.tracked → d = true)
    (henq : enqueueTask st p d now = .ok (st', evs)) :
    st'.queue = h :: (rest.takeWhile (leP (normalizeTask st p now).taskPriority) ++
        normalizeTask st p now ::
          rest.dropWhile (leP (normalizeTask st p now).taskPriority)) ∧
    st'.queue.head? = some h ∧
    (∀ x ∈ rest.takeWhile (leP (normalizeTask st p now).taskPriority),
        x.taskPriority ≤ (normalizeTask st p now).taskPriority) ∧
    (SortedWaiting st →
      ∀ x ∈ rest.dropWhile (leP (normalizeTask st p now).taskPriority),
        (normalizeTask st p now).taskPriority < x.taskPriority) ∧
    ((∀ x ∈ rest, x.taskPriority ≤ (normalizeTask st p now).taskPriority) →
        st'.tail = some (normalizeTask st p now)) ∧
    ((¬ ∀ x ∈ rest, x.taskPriority ≤ (normalizeTask st p now).taskPriority) →
        st'.tail = st.tail) := by
  rw [enqueueTask_append_eq st p d now h rest hq hc] at henq
  simp only [Except.ok.injEq, Prod.mk.injEq] at henq
  obtain ⟨h1, h2⟩ := henq
  subst h1
  refine ⟨?_, ?_, ?_, ?_, ?_, ?_⟩
  · simp [insertWalk_fst_eq]
  · simp
  · intro x hx
    have := List.mem_takeWhile_imp hx
    simpa [leP] using this
  · intro hS x hx
    have hrest : List.Pairwise (fun a b => a.taskPriority ≤ b.taskPriority) rest := by
      rw [SortedWaiting, waiting, hq] at hS
      simpa using hS
    exact sorted_dropWhile_gt hrest x hx
  · intro hall
    have hb : rest.all (leP (normalizeTask st p now).taskPriority) = true :=
      List.all_eq_true.mpr fun x hx => by simpa [leP] using hall x hx
    simp [insertWalk_snd_eq, hb]
  · intro hnall
    have hb : rest.all (leP (normalizeTask st p now).taskPriority) = false := by
      cases hbv : rest.all (leP (normalizeTask st p now).taskPriority) with
      | false => rfl
      | true =>
        exact absurd (fun x hx => by simpa [leP] using List.all_eq_true.mp hbv x hx) hnall
    simp [insertWalk_snd_eq, hb]

/-- Witness for C2: inserting a priority-3 task behind a priority-5
head lands behind the head (never at the head) and becomes the new
tail. -/
theorem c2_ordered_insertion_witness :
    ({ tmName := "TaskManager"
       queue := [wTask 1 5 false, wTask 2 3 false]
       tail := some (wTask 2 3 false)
       length := 2
       tracked := [2, 1]
       defaultTaskFunc := none
       debug_tasks := false } : TMState).queue =
      [wTask 1 5 false, wTask 2 3 false] ∧
    ({ tmName := "TaskManager"
       queue := [wTask 1 5 false, wTask 2 3 false]
       tail := some (wTask 2 3 false)
       length := 2
       tracked := [2, 1]
       defaultTaskFunc := none
       debug_tasks := false } : TMState).tail = some (wTask 2 3 false) := by
  have h := c2_ordered_insertion (wState [wTask 1 5 false]) (wParams 2 3 false) false 0
    (wTask 1 5 false) []
    { tmName := "TaskManager"
      queue := [wTask 1 5 false, wTask 2 3 false]
      tail := some (wTask 2 3 false)
      length := 2
      tracked := [2, 1]
      defaultTaskFunc := none
      debug_tasks := false }
    [(Ev.logLog "Enqueuing Task on TaskManager", 1), (Ev.logLog "Appending to queue", 1)]
    rfl (by decide) rfl
  exact ⟨h.1, h.2.2.2.2.1 (by simp)⟩

/-- C3 (amended): the `ready` listener removes the completed task's id
from the duplicate set, advances `head` to the completed task's
successor, and then — with `length` still undecremented — either
begins executing the new head, or clears `tail` and fires `complete`;
the decrement of `length` happens only after that, and `complete`
fires exactly when the chain transitions to empty. -/
theorem c3_ready_advance (st : TMState) (t : TMTask) (rest : List TMTask)
    (st' : TMState) (evs : Trace) (hq : st.queue = t :: rest)
    (h : readyListener st = .ok (st', evs)) :
    st'.tracked = st.tracked.erase t.id ∧
    st'.queue = rest ∧
    st'.length = st.length - 1 ∧
    (rest = [] → st'.tail = none ∧ (Ev.complete, st.length) ∈ evs) ∧
    (∀ nx nrest, rest = nx :: nrest →
        st'.tail = st.tail ∧ (Ev.execStart nx, st.length) ∈ evs ∧
        ∀ pr : Int, (Ev.complete, pr) ∉ evs) ∧
    ((∃ pr : Int, (Ev.complete, pr) ∈ evs) ↔ rest = []) := by
  cases rest with
  | nil =>
    rw [readyListener_last_eq st t hq] at h
    simp only [Except.ok.injEq, Prod.mk.injEq] at h
    obtain ⟨h1, h2⟩ := h
    subst h1
    subst h2
    refine ⟨rfl, rfl, rfl, ?_, ?_, ?_⟩
    · intro _
      refine ⟨rfl, ?_⟩
      by_cases hdbg : st.debug_tasks <;> simp [hdbg]
    · intro nx nrest hcon
      cases hcon
    · constructor
      · intro _
        rfl
      · intro _
        exact ⟨st.length, by by_cases hdbg : st.debug_tasks <;> simp [hdbg]⟩
  | cons nx nrest =>
    cases hf : nx.taskFunc with
    | none =>
      rw [readyListener_cons_err st t nx nrest hq hf] at h
      cases h
    | some u =>
      cases u
      rw [readyListener_cons_eq st t nx nrest hq hf] at h
      simp only [Except.ok.injEq, Prod.mk.injEq] at h
      obtain ⟨h1, h2⟩ := h
      subst h1
      subst h2
      refine ⟨rfl, rfl, rfl, ?_, ?_, ?_⟩
      · intro hcon
        cases hcon
      · intro nx' nrest' heq
        obtain ⟨rfl, rfl⟩ : nx' = nx ∧ nrest' = nrest := by
          constructor <;> injection heq <;> simp_all
        refine ⟨rfl, ?_, ?_⟩
        · by_cases hdbg : st.debug_tasks <;> simp [hdbg]
        · intro pr
          by_cases hdbg : st.debug_tasks <;> simp [hdbg]
      · constructor
        · intro ⟨pr, hpr⟩
          exfalso
          revert hpr
          by_cases hdbg : st.debug_tasks <;> simp [hdbg]
        · intro hcon
          cases hcon

/-- Counterexample to C3 as stated: completing the only task of a
one-task chain fires `complete` while `length` is still 1 — the
decrement to 0 happens only after the branch, so `length` has *not*
been decremented at the moment `complete` fires. -/
theorem c3_counterexample :
    readyListener (wState [wTask 1 5 false]) =
      .ok ({ tmName := "TaskManager"
             queue := []
             tail := none
             length := 0
             tracked := []
             defaultTaskFunc := none
             debug_tasks := false },
        [(Ev.logInfo "Task Completed for", 1),
         (Ev.logInfo "Queue Complete", 1),
         (Ev.complete, 1)]) ∧
    ¬ ((1 : Int) = 1 - 1) := by
  exact ⟨rfl, by decide⟩

/-- Witness for C3 at a two-task chain: the id is untracked, the head
advances, length is decremented in the final state, and the new head's
execution begins while `length` still reads 2. -/
theorem c3_ready_advance_witness :
    ({ tmName := "TaskManager"
       queue := [wTask 2 9 false]
       tail := some (wTask 2 9 false)
       length := 1
       tracked := [2]
       defaultTaskFunc := none
       debug_tasks := false } : TMState).tracked = [2] ∧
    (Ev.execStart (wTask 2 9 false), (2 : Int)) ∈
      ([(Ev.logInfo "Task Completed for", 2),
        (Ev.logInfo "Executing next task", 2),
        (Ev.logDebug "Executing task", 2),
        (Ev.execStart (wTask 2 9 false), 2)] : Trace) ∧
    (∀ pr : Int, (Ev.complete, pr) ∉
      ([(Ev.logInfo "Task Completed for", 2),
        (Ev.logInfo "Executing next task", 2),
        (Ev.logDebug "Executing task", 2),
        (Ev.execStart (wTask 2 9 false), 2)] : Trace)) := by
  have h := c3_ready_advance (wState [wTask 1 9 false, wTask 2 9 false])
    (wTask 1 9 false) [wTask 2 9 false]
    { tmName := "TaskManager"
      queue := [wTask 2 9 false]
      tail := some (wTask 2 9 false)
      length := 1
      tracked := [2]
      defaultTaskFunc := none
      debug_tasks := false }
    [(Ev.logInfo "Task Completed for", 2),
     (Ev.logInfo "Executing next task", 2),
     (Ev.logDebug "Executing task", 2),
     (Ev.execStart (wTask 2 9 false), 2)]
    rfl rfl
  obtain ⟨h1, -, -, -, h5, -⟩ := h
  obtain ⟨-, hmem, hnc⟩ := h5 (wTask 2 9 false) [] rfl
  exact ⟨h1, hmem, hnc⟩

/-- A successful `ready` listener run never emits a `ready` event of
its own (the single `ready` per completion comes from the emit site). -/
lemma readyListener_trace_no_ready {st st' : TMState} {evs : Trace}
    (h : readyListener st = .ok (st', evs)) : readyTasks evs = [] := by
  cases hq : st.queue with
  | nil => rw [readyListener, hq] at h; cases h
  | cons t rest =>
    cases rest with
    | nil =>
      rw [readyListener_last_eq st t hq] at h
      simp only [Except.ok.injEq, Prod.mk.injEq] at h
      rw [← h.2]
      by_cases hdbg : st.debug_tasks <;> simp [hdbg, readyTasks]
    | cons nx nrest =>
      cases hf : nx.taskFunc with
      | none =>
        rw [readyListener_cons_err st t nx nrest hq hf] at h
        cases h
      | some u =>
        cases u
        rw [readyListener_cons_eq st t nx nrest hq hf] at h
        simp only [Except.ok.injEq, Prod.mk.injEq] at h
        rw [← h.2]
        by_cases hdbg : st.debug_tasks <;> simp [hdbg, readyTasks]

/-- C5: across any sequence of interactions that starts from a state
whose bookkeeping agrees with the chain, `length` always equals the
number of linked nodes from `head` to `tail` inclusive, `tail` is the
last linked node, and `length` is 0 whenever `head` is null. -/
theorem c5_length_accounting (st : TMState) (as : List Action) (st' : TMState)
    (evs : Trace) (h : run st as = .ok (st', evs))
    (hL : LenInv st) (hT : TailInv st) :
    st'.length = st'.queue.length ∧
    st'.tail = st'.queue.getLast? ∧
    (st'.queue.head? = none → st'.length = 0) := by
  have hL' := lenInv_run h hL
  have hT' := tailInv_run h hT
  refine ⟨hL', hT', ?_⟩
  intro hh
  rw [LenInv] at hL'
  cases hq : st'.queue with
  | nil =>
    rw [hq] at hL'
    simpa using hL'
  | cons a l =>
    rw [hq] at hh
    simp at hh

/-- Witness for C5: two submissions to an idle manager leave
`length = 2` matching the two linked nodes, with `tail` the last. -/
theorem c5_length_accounting_witness :
    ({ tmName := "TaskManager"
       queue := [wTask 1 5 false, wTask 2 7 false]
       tail := some (wTask 2 7 false)
       length := 2
       tracked := [2, 1]
       defaultTaskFunc := none
       debug_tasks := false } : TMState).length =
      ({ tmName := "TaskManager"
         queue := [wTask 1 5 false, wTask 2 7 false]
         tail := some (wTask 2 7 false)
         length := 2
         tracked := [2, 1]
         defaultTaskFunc := none
         debug_tasks := false } : TMState).queue.length ∧
    ({ tmName := "TaskManager"
       queue := [wTask 1 5 false, wTask 2 7 false]
       tail := some (wTask 2 7 false)
       length := 2
       tracked := [2, 1]
       defaultTaskFunc := none
       debug_tasks := false } : TMState).tail =
      ({ tmName := "TaskManager"
         queue := [wTask 1 5 false, wTask 2 7 false]
         tail := some (wTask 2 7 false)
         length := 2
         tracked := [2, 1]
         defaultTaskFunc := none
         debug_tasks := false } : TMState).queue.getLast? := by
  have h := c5_length_accounting (wState [])
    [Action.enq (wParams 1 5 false) false 0, Action.enq (wParams 2 7 false) false 0]
    { tmName := "TaskManager"
      queue := [wTask 1 5 false, wTask 2 7 false]
      tail := some (wTask 2 7 false)
      length := 2
      tracked := [2, 1]
      defaultTaskFunc := none
      debug_tasks := false }
    [(Ev.logLog "Enqueuing Task on TaskManager", 0),
     (Ev.logLog "Starting new queue with", 0),
     (Ev.logDebug "Executing task", 0),
     (Ev.execStart (wTask 1 5 false), 0),
     (Ev.logLog "Enqueuing Task on TaskManager", 1),
     (Ev.logLog "Appending to queue", 1)]
    rfl rfl rfl
  exact ⟨h.1, h.2.1⟩

/-- C1 (amended): (i) every interaction preserves sortedness of the
*waiting* chain behind the executing head (so waiting tasks complete
in non-decreasing priority order, FIFO among equal priorities, by
(iii) and (iv)); (ii) a submission onto a non-empty chain never
changes the head, starts no execution and completes nothing — a
lower-priority-value submission never preempts the head; (iii) a
successful settlement completes exactly the head and advances the
chain in order; (iv) the walk places a new task after exactly the
longest less-than-or-equal-priority prefix of the waiting chain,
preserving submission order among equal priorities. -/
theorem c1_priority_scheduling :
    (∀ (st : TMState) (as : List Action) (st' : TMState) (evs : Trace),
        run st as = .ok (st', evs) → SortedWaiting st → SortedWaiting st') ∧
    (∀ (st : TMState) (p : TMTaskParams) (d : Bool) (now : Nat)
        (st' : TMState) (evs : Trace),
        st.queue ≠ [] → enqueueTask st p d now = .ok (st', evs) →
        st'.queue.head? = st.queue.head? ∧ execStarts evs = [] ∧
          readyTasks evs = []) ∧
    (∀ (st : TMState) (t : TMTask) (rest : List TMTask)
        (st' : TMState) (evs : Trace),
        st.queue = t :: rest → settleHead st .resolve = .ok (st', evs) →
        readyTasks evs = [t] ∧ st'.queue = rest) ∧
    (∀ (t : TMTask) (l : List TMTask),
        (insertWalk t l).1 =
          l.takeWhile (leP t.taskPriority) ++ t :: l.dropWhile (leP t.taskPriority)) := by
  refine ⟨?_, ?_, ?_, insertWalk_fst_eq⟩
  · intro st as st' evs h hS
    exact sorted_run h hS
  · intro st p d now st' evs hne henq
    by_cases hc : (normalizeTask st p now).id ∈ st.tracked → d = true
    · obtain ⟨hd, rest, hq⟩ := List.exists_cons_of_ne_nil hne
      rw [enqueueTask_append_eq st p d now hd rest hq hc] at henq
      simp only [Except.ok.injEq, Prod.mk.injEq] at henq
      obtain ⟨h1, h2⟩ := henq
      subst h1
      subst h2
      refine ⟨by rw [hq]; rfl, ?_, ?_⟩ <;>
        by_cases h10 : st.length + 1 > 10 <;> by_cases hdbg : p.debug_task <;>
          simp [h10, hdbg, execStarts, readyTasks]
    · push_neg at hc
      obtain ⟨hmem, hdf⟩ := hc
      have hdf' : d = false := by
        cases d
        · rfl
        · exact absurd rfl hdf
      subst hdf'

      rw [enqueueTask_drop_eq st p false now hmem rfl] at henq
      · simp only [Except.ok.injEq, Prod.mk.injEq] at henq
        obtain ⟨h1, h2⟩ := henq
        subst h1
        subst h2
        refine ⟨rfl, ?_, ?_⟩ <;>
          by_cases hdbg : p.debug_task <;> simp [hdbg, execStarts, readyTasks]
  · intro st t rest st' evs hq h
    cases hr : readyListener st with
    | error e =>
      rw [settleHead_resolve_err st t rest e hq hr] at h
      cases h
    | ok r =>
      obtain ⟨rst, revs⟩ := r
      rw [settleHead_resolve_eq st t rest rst revs hq hr] at h
      simp only [Except.ok.injEq, Prod.mk.injEq] at h
      obtain ⟨h1, h2⟩ := h
      subst h1
      subst h2
      constructor
      · have hnr := readyListener_trace_no_ready hr
        have hstep : readyTasks ((Ev.ready t, st.length) :: revs) =
            t :: readyTasks revs := rfl
        rw [hstep, hnr]
      · obtain ⟨t2, rest2, hq2, hcase⟩ := readyListener_ok_cases hr
        rw [hq] at hq2
        injection hq2 with hq2a hq2b
        rcases hcase with ⟨hnil, rfl⟩ | ⟨hne2, rfl⟩
        · show ([] : List TMTask) = rest
          rw [hq2b, hnil]
        · show rest2 = rest
          exact hq2b.symm

/-- Counterexample to C1 as stated: submit A (priority 5) to an idle
manager — it starts executing at once — then submit B (priority 1);
A completes before B, so the completion priorities are [5, 1], which
is not non-decreasing.  (This is the spec's own §8 example.) -/
theorem c1_counterexample :
    (run (wState []) [Action.enq (wParams 1 5 false) false 0,
        Action.enq (wParams 2 1 false) false 0,
        Action.settle Outcome.resolve, Action.settle Outcome.resolve]).toOption.map
      (fun r => readyPriorities r.2) = some [5, 1] ∧
    ¬ ((5 : Int) ≤ 1) := by
  exact ⟨rfl, by decide⟩

/-- Witness for C1 at concrete inputs: an insertion behind a
priority-5 head keeps the waiting chain sorted and does not touch the
head, and a resolution completes exactly the head. -/
theorem c1_priority_scheduling_witness :
    SortedWaiting { tmName := "TaskManager"
                    queue := [wTask 1 5 false, wTask 2 3 false]
                    tail := some (wTask 2 3 false)
                    length := 2
                    tracked := [2, 1]
                    defaultTaskFunc := none
                    debug_tasks := false } ∧
    (({ tmName := "TaskManager"
        queue := [wTask 1 5 false, wTask 2 3 false]
        tail := some (wTask 2 3 false)
        length := 2
        tracked := [2, 1]
        defaultTaskFunc := none
        debug_tasks := false } : TMState).queue.head? =
        (wState [wTask 1 5 false]).queue.head? ∧
      execStarts [(Ev.logLog "Enqueuing Task on TaskManager", 1),
        (Ev.logLog "Appending to queue", 1)] = [] ∧
      readyTasks [(Ev.logLog "Enqueuing Task on TaskManager", 1),
        (Ev.logLog "Appending to queue", 1)] = []) ∧
    (readyTasks [(Ev.ready (wTask 1 5 false), 2),
        (Ev.logInfo "Task Completed for", 2),
        (Ev.logInfo "Executing next task", 2),
        (Ev.logDebug "Executing task", 2),
        (Ev.execStart (wTask 2 6 false), 2)] = [wTask 1 5 false] ∧
      ({ tmName := "TaskManager"
         queue := [wTask 2 6 false]
         tail := some (wTask 2 6 false)
         length := 1
         tracked := [2]
         defaultTaskFunc := none
         debug_tasks := false } : TMState).queue = [wTask 2 6 false]) := by
  refine ⟨?_, ?_, ?_⟩
  · exact c1_priority_scheduling.1 (wState [wTask 1 5 false])
      [Action.enq (wParams 2 3 false) false 0]
      { tmName := "TaskManager"
        queue := [wTask 1 5 false, wTask 2 3 false]
        tail := some (wTask 2 3 false)
        length := 2
        tracked := [2, 1]
        defaultTaskFunc := none
        debug_tasks := false }
      [(Ev.logLog "Enqueuing Task on TaskManager", 1),
       (Ev.logLog "Appending to queue", 1)]
      rfl List.Pairwise.nil
  · exact c1_priority_scheduling.2.1 (wState [wTask 1 5 false]) (wParams 2 3 false)
      false 0
      { tmName := "TaskManager"
        queue := [wTask 1 5 false, wTask 2 3 false]
        tail := some (wTask 2 3 false)
        length := 2
        tracked := [2, 1]
        defaultTaskFunc := none
        debug_tasks := false }
      [(Ev.logLog "Enqueuing Task on TaskManager", 1),
       (Ev.logLog "Appending to queue", 1)]
      (by decide) rfl
  · exact c1_priority_scheduling.2.2.1
      (wState [wTask 1 5 false, wTask 2 6 false]) (wTask 1 5 false) [wTask 2 6 false]
      { tmName := "TaskManager"
        queue := [wTask 2 6 false]
        tail := some (wTask 2 6 false)
        length := 1
        tracked := [2]
        defaultTaskFunc := none
        debug_tasks := false }
      [(Ev.ready (wTask 1 5 false), 2),
       (Ev.logInfo "Task Completed for", 2),
       (Ev.logInfo "Executing next task", 2),
       (Ev.logDebug "Executing task", 2),
       (Ev.execStart (wTask 2 6 false), 2)]
      rfl rfl

/-- A failing dispatch inside the listener propagates through `skip`. -/
lemma skip_pos_err (st : TMState) (e : String) (hl : st.length > 0)
    (t : TMTask) (rest : List TMTask) (hq : st.queue = t :: rest)
    (hr : readyListener st = .error e) : skip st = .error e := by
  simp [skip, hl, hq, hr]

/-- C4 (amended): the retry sequence — re-enqueue of the demoted task
with the bypass flag, then `skip()` — leaves the queue length exactly
what it was immediately before the sequence (one fewer than right
after the re-submission), not one fewer than before; the re-submitted
copy sits in the waiting chain at the position given by the ordinary
priority-insertion walk, carrying the demoted priority. -/
theorem c4_retry_requeue (st : TMState) (t : TMTask) (rest : List TMTask)
    (st' : TMState) (evs : Trace) (hq : st.queue = t :: rest) (hret : t.retry = true)
    (hL : LenInv st) (h : settleHead st .reject = .ok (st', evs)) :
    st'.length = st.length ∧
    st'.queue = (insertWalk (normalizeTask st (paramsOfTask
        { t with taskPriority := retryBumpPriority t.taskPriority }) 0) rest).1 ∧
    (normalizeTask st (paramsOfTask
        { t with taskPriority := retryBumpPriority t.taskPriority }) 0).taskPriority =
      retryBumpPriority t.taskPriority := by
  rw [settleHead_reject_retry_eq st t rest hq hret] at h
  obtain ⟨st1, e1, e2, he, hs⟩ := retryCatch_ok_cases h
  rw [enqueueTask_append_eq _ (paramsOfTask
      { t with taskPriority := retryBumpPriority t.taskPriority }) true 0
      { t with taskPriority := retryBumpPriority t.taskPriority } rest rfl
      (fun _ => rfl)] at he
  simp only [Except.ok.injEq, Prod.mk.injEq] at he
  obtain ⟨he1, he2⟩ := he
  have hq1 : st1.queue = { t with taskPriority := retryBumpPriority t.taskPriority } ::
      (insertWalk (normalizeTask st (paramsOfTask
        { t with taskPriority := retryBumpPriority t.taskPriority }) 0) rest).1 := by
    rw [← he1]
    rfl
  have hlen1 : st1.length = st.length + 1 := by
    rw [← he1]
  have hl1 : st1.length > 0 := by
    rw [LenInv, hq] at hL
    simp only [List.length_cons] at hL
    rw [hlen1]
    omega
  cases hiw : (insertWalk (normalizeTask st (paramsOfTask
      { t with taskPriority := retryBumpPriority t.taskPriority }) 0) rest).1 with
  | nil =>
    exfalso
    have hlw := insertWalk_length (normalizeTask st (paramsOfTask
      { t with taskPriority := retryBumpPriority t.taskPriority }) 0) rest
    rw [hiw] at hlw
    simp at hlw
  | cons nx nrest =>
    rw [hiw] at hq1
    cases hfx : nx.taskFunc with
    | none =>
      rw [skip_pos_err st1 _ hl1 _ (nx :: nrest) hq1
        (readyListener_cons_err st1 _ nx nrest hq1 hfx)] at hs
      cases hs
    | some u =>
      cases u
      rw [skip_pos_eq st1 _ (nx :: nrest) _ _ hl1 hq1
        (readyListener_cons_eq st1 _ nx nrest hq1 hfx)] at hs
      simp only [Except.ok.injEq, Prod.mk.injEq] at hs
      obtain ⟨hs1, hs2⟩ := hs
      subst hs1
      refine ⟨?_, ?_, rfl⟩
      · show st1.length - 1 = st.length
        rw [hlen1]
        omega
      · rfl

/-- Counterexample to C4 as stated: a lone retrying task of priority 3
fails; the retry sequence re-queues its demoted copy and retires the
failed head, leaving `length = 1` — the same as immediately before the
sequence, not one fewer (which would be 0). -/
theorem c4_counterexample :
    settleHead (wState [wTask 1 3 true]) .reject =
      .ok ({ tmName := "TaskManager"
             queue := [wTask 1 4 true]
             tail := some (wTask 1 4 true)
             length := 1
             tracked := []
             defaultTaskFunc := none
             debug_tasks := false },
        [(Ev.logError "failed:", 1),
         (Ev.logLog "Enqueuing Task on TaskManager", 1),
         (Ev.logLog "Appending to queue", 1),
         (Ev.logWarn "Skipping task at head of queue", 2),
         (Ev.ready (wTask 1 4 true), 2),
         (Ev.logInfo "Task Completed for", 2),
         (Ev.logInfo "Executing next task", 2),
         (Ev.logDebug "Executing task", 2),
         (Ev.execStart (wTask 1 4 true), 2)]) ∧
    ¬ ((1 : Int) = 1 - 1) := by
  exact ⟨rfl, by decide⟩

/-- Witness for C4: a retrying priority-3 head failing in front of a
priority-5 waiting task; afterwards the length is back to 2 and the
demoted copy (priority 4) waits ahead of the priority-5 task. -/
theorem c4_retry_requeue_witness :
    ({ tmName := "TaskManager"
       queue := [wTask 1 4 true, wTask 2 5 false]
       tail := some (wTask 2 5 false)
       length := 2
       tracked := [2]
       defaultTaskFunc := none
       debug_tasks := false } : TMState).length =
      (wState [wTask 1 3 true, wTask 2 5 false]).length ∧
    ({ tmName := "TaskManager"
       queue := [wTask 1 4 true, wTask 2 5 false]
       tail := some (wTask 2 5 false)
       length := 2
       tracked := [2]
       defaultTaskFunc := none
       debug_tasks := false } : TMState).queue =
      (insertWalk (normalizeTask (wState [wTask 1 3 true, wTask 2 5 false])
        (paramsOfTask { wTask 1 3 true with
          taskPriority := retryBumpPriority (wTask 1 3 true).taskPriority }) 0)
        [wTask 2 5 false]).1 := by
  have h := c4_retry_requeue (wState [wTask 1 3 true, wTask 2 5 false])
    (wTask 1 3 true) [wTask 2 5 false]
    { tmName := "TaskManager"
      queue := [wTask 1 4 true, wTask 2 5 false]
      tail := some (wTask 2 5 false)
      length := 2
      tracked := [2]
      defaultTaskFunc := none
      debug_tasks := false }
    [(Ev.logError "failed:", 2),
     (Ev.logLog "Enqueuing Task on TaskManager", 2),
     (Ev.logLog "Appending to queue", 2),
     (Ev.logWarn "Skipping task at head of queue", 3),
     (Ev.ready (wTask 1 4 true), 3),
     (Ev.logInfo "Task Completed for", 3),
     (Ev.logInfo "Executing next task", 3),
     (Ev.logDebug "Executing task", 3),
     (Ev.execStart (wTask 1 4 true), 3)]
    rfl rfl rfl rfl
  exact ⟨h.1, h.2.1⟩

end TaskManagerSpec
